import Mathlib

/-!
# Verification of the aircraft-list staging/diff/release pipeline

Shallow embedding of the repository's four Python scripts
(`sync_aircraft.py`, `review_changes.py`, `validate.py`, `release.py`).

JSON documents are modelled at the level of structure the scripts actually
inspect: registry documents are string-keyed association lists whose values
are either scalars or a list of aircraft items, aircraft records are
string-keyed association lists of scalars.  (No code path in the repository
looks inside a nested composite below that depth: record field values are
only ever compared for equality or copied.)  Python dicts are modelled as
association lists with unique keys maintained by an overwrite-in-place
insert, which matches CPython's insertion-ordered dict semantics.
-/

/-- A scalar JSON value (the only values the scripts store inside an
aircraft record).  `bool` is kept separate from `int` because Python's
`isinstance(x, int)` and `==` treat booleans as integers, which the
embedding reproduces explicitly where it matters. -/
inductive JValue where
  | null : JValue
  | str : String → JValue
  | int : Int → JValue
  | bool : Bool → JValue
deriving DecidableEq, Repr

/-- A Python dict with values of type α, as an association list.  All dicts
built by the modelled code have unique keys (they are produced by
`dictSet`). -/
abbrev PyDict (α : Type) := List (String × α)

/-- An aircraft record: a JSON object of scalars. -/
abbrev JDict := PyDict JValue

/-- An element of a registry's `aircraft` array: either an object or a
stray scalar (the validator checks for the latter). -/
inductive JItem where
  | obj : JDict → JItem
  | scalar : JValue → JItem
deriving DecidableEq, Repr

/-- The value of a top-level registry key: a scalar or the aircraft list. -/
inductive JField where
  | scalar : JValue → JField
  | list : List JItem → JField
deriving DecidableEq, Repr

/-- A top-level registry JSON document. -/
abbrev RegistryDoc := PyDict JField

/-- `d[k]` lookup returning `none` on a missing key (Python `d.get(k)` /
a guarded `d[k]`). -/
def dictGet (d : PyDict α) (k : String) : Option α :=
  match d with
  | [] => none
  | (k', v) :: rest => if k' = k then some v else dictGet rest k

/-- `d[k] = v`: overwrite in place if the key exists (keeping its
position, as CPython dicts do), otherwise append. -/
def dictSet (d : PyDict α) (k : String) (v : α) : PyDict α :=
  match d with
  | [] => [(k, v)]
  | (k', v') :: rest => if k' = k then (k, v) :: rest else (k', v') :: dictSet rest k v

/-- `d.update(e)`: fold `dictSet` over the entries of `e`. -/
def dictUpdate (d e : PyDict α) : PyDict α :=
  e.foldl (fun acc p => dictSet acc p.1 p.2) d

/-- `list(d.keys())` in insertion order. -/
def dictKeys (d : PyDict α) : List String :=
  d.map (·.1)

/-- `record.get(field)`: missing keys read as `None`.  This is the exact
accessor `ChangeReviewer.compare_aircraft` uses, so a stored `null` and an
absent key are indistinguishable to the diff engine. -/
def pyGet (r : JDict) (k : String) : JValue :=
  (dictGet r k).getD .null

/-- Python truthiness of a scalar value. -/
def jTruthy : JValue → Bool
  | .null => false
  | .str s => !(s == "")
  | .int n => !(n == 0)
  | .bool b => b

-- ### Basic dict lemmas

theorem dictGet_dictSet_self (d : PyDict α) (k : String) (v : α) :
    dictGet (dictSet d k v) k = some v := by
  induction d with
  | nil => simp [dictGet, dictSet]
  | cons p rest ih =>
    obtain ⟨k', v'⟩ := p
    by_cases h : k' = k
    · simp [dictGet, dictSet, h]
    · simp [dictGet, dictSet, h, ih]

theorem dictGet_dictSet_ne (d : PyDict α) (k k' : String) (v : α) (h : k ≠ k') :
    dictGet (dictSet d k v) k' = dictGet d k' := by
  induction d with
  | nil => simp [dictGet, dictSet, h]
  | cons p rest ih =>
    obtain ⟨a, b⟩ := p
    by_cases ha : a = k
    · subst ha
      simp [dictGet, dictSet, h]
    · simp only [dictSet, if_neg ha]
      by_cases hb : a = k'
      · simp [dictGet, hb]
      · simp [dictGet, hb, ih]

theorem mem_dictKeys_iff_dictGet_isSome (d : PyDict α) (k : String) :
    k ∈ dictKeys d ↔ (dictGet d k).isSome := by
  induction d with
  | nil => simp [dictKeys, dictGet]
  | cons p rest ih =>
    obtain ⟨a, b⟩ := p
    by_cases ha : a = k
    · simp [dictKeys, dictGet, ha]
    · simp only [dictKeys, List.map_cons, List.mem_cons, dictGet, if_neg ha]
      constructor
      · rintro (h | h)
        · exact absurd h.symm ha
        · exact (ih.mp (by simpa [dictKeys] using h))
      · intro h
        exact Or.inr (by simpa [dictKeys] using ih.mpr h)

theorem dictGet_eq_none_iff_not_mem (d : PyDict α) (k : String) :
    dictGet d k = none ↔ k ∉ dictKeys d := by
  rw [mem_dictKeys_iff_dictGet_isSome]
  cases dictGet d k <;> simp

theorem mem_dictKeys_dictSet (d : PyDict α) (k k' : String) (v : α) :
    k' ∈ dictKeys (dictSet d k v) ↔ k' ∈ dictKeys d ∨ k' = k := by
  by_cases h : k' = k
  · subst h
    simp [mem_dictKeys_iff_dictGet_isSome, dictGet_dictSet_self]
  · rw [mem_dictKeys_iff_dictGet_isSome, dictGet_dictSet_ne d k k' v (fun he => h he.symm),
      ← mem_dictKeys_iff_dictGet_isSome]
    simp [h]

/-- If a key is absent, `dictSet` appends the new binding at the end. -/
theorem dictSet_eq_append_of_not_mem (d : PyDict α) (k : String) (v : α)
    (h : dictGet d k = none) : dictSet d k v = d ++ [(k, v)] := by
  induction d with
  | nil => simp [dictSet]
  | cons p rest ih =>
    obtain ⟨a, b⟩ := p
    by_cases ha : a = k
    · simp [dictGet, ha] at h
    · simp only [dictGet, if_neg ha] at h
      simp [dictSet, ha, ih h]

-- ### Python string ordering (code-point lexicographic), used by sorted()

/-- Lexicographic comparison of char lists by code point; exactly Python's
string ordering (shorter prefix sorts first). -/
def charListLe : List Char → List Char → Bool
  | [], _ => true
  | _ :: _, [] => false
  | a :: as, b :: bs =>
      if a.toNat = b.toNat then charListLe as bs else decide (a.toNat < b.toNat)

/-- Python string `<=`. -/
def strLe (a b : String) : Bool := charListLe a.data b.data

/-- `strLe` as a relation for sorting lemmas. -/
def StrLe (a b : String) : Prop := strLe a b = true

instance : DecidableRel StrLe := fun a b => by unfold StrLe; infer_instance

theorem charListLe_total : ∀ as bs, charListLe as bs = true ∨ charListLe bs as = true
  | [], _ => Or.inl rfl
  | _ :: _, [] => Or.inr rfl
  | a :: as, b :: bs => by
    by_cases h : a.toNat = b.toNat
    · rcases charListLe_total as bs with ht | ht
      · exact Or.inl (by simp [charListLe, h, ht])
      · exact Or.inr (by simp [charListLe, h.symm, ht])
    · have hne : ¬ b.toNat = a.toNat := fun he => h he.symm
      rcases Nat.lt_or_ge a.toNat b.toNat with hlt | hge
      · exact Or.inl (by simp [charListLe, h, hlt])
      · have hlt : b.toNat < a.toNat := lt_of_le_of_ne hge hne
        exact Or.inr (by simp [charListLe, hne, hlt])

theorem charListLe_trans :
    ∀ as bs cs, charListLe as bs = true → charListLe bs cs = true → charListLe as cs = true
  | [], _, _ => fun _ _ => rfl
  | _ :: _, [], _ => fun h _ => by simp [charListLe] at h
  | _ :: _, _ :: _, [] => fun _ h => by simp [charListLe] at h
  | a :: as, b :: bs, c :: cs => fun h1 h2 => by
    by_cases hab : a.toNat = b.toNat <;> by_cases hbc : b.toNat = c.toNat
    · simp only [charListLe, if_pos hab] at h1
      simp only [charListLe, if_pos hbc] at h2
      simp only [charListLe, if_pos (hab.trans hbc)]
      exact charListLe_trans as bs cs h1 h2
    · simp only [charListLe, if_neg hbc, decide_eq_true_eq] at h2
      have hac : a.toNat < c.toNat := hab ▸ h2
      simp [charListLe, Nat.ne_of_lt hac, hac]
    · simp only [charListLe, if_neg hab, decide_eq_true_eq] at h1
      have hac : a.toNat < c.toNat := hbc ▸ h1
      simp [charListLe, Nat.ne_of_lt hac, hac]
    · simp only [charListLe, if_neg hab, decide_eq_true_eq] at h1
      simp only [charListLe, if_neg hbc, decide_eq_true_eq] at h2
      have hac : a.toNat < c.toNat := h1.trans h2
      simp [charListLe, Nat.ne_of_lt hac, hac]

instance : IsTotal String StrLe := ⟨fun a b => charListLe_total a.data b.data⟩

instance : IsTrans String StrLe :=
  ⟨fun a b c h1 h2 => charListLe_trans a.data b.data c.data h1 h2⟩

/-- Python `sorted()` on a list of strings (a stable sort under a total
order; on strings any correct sort produces the same list). -/
def pySorted (l : List String) : List String := List.insertionSort StrLe l

theorem mem_pySorted {l : List String} {a : String} : a ∈ pySorted l ↔ a ∈ l :=
  List.mem_insertionSort _

theorem sorted_pySorted (l : List String) : (pySorted l).Sorted StrLe :=
  List.sorted_insertionSort _ l

-- ### Diff Engine (review_changes.py)

/-- The fixed comparison field set of `ChangeReviewer.compare_aircraft`. -/
def watchedFields : List String := ["icao_aircraft_type", "aircraft_type", "mtom"]

/-- `ChangeReviewer.compare_aircraft`: field-by-field comparison over the
watched fields, reading both sides with `.get` (missing reads as `None`).
Entries are `(field, (old, new))` in watched-field order, matching the
Python dict built there. -/
def compare_aircraft (old_aircraft new_aircraft : JDict) :
    List (String × JValue × JValue) :=
  watchedFields.filterMap (fun field =>
    let old_value := pyGet old_aircraft field
    let new_value := pyGet new_aircraft field
    if old_value ≠ new_value then some (field, old_value, new_value) else none)

/-- The registration of an aircraft item, as used for
`aircraft["registration"]` dict keys.  `none` models the paths on which
CPython raises (a scalar item, a missing key) or a non-string key outside
the data model; every record the scripts produce carries a string
registration. -/
def itemRegistration : JItem → Option String
  | .obj r =>
      match dictGet r "registration" with
      | some (.str s) => some s
      | _ => none
  | .scalar _ => none

/-- `registry.get("aircraft", [])`.  A scalar under the `aircraft` key
would make Python's iteration raise; that is the `none` case. -/
def getAircraftList (d : RegistryDoc) : Option (List JItem) :=
  match dictGet d "aircraft" with
  | none => some []
  | some (.list items) => some items
  | some (.scalar _) => none

/-- The dict comprehension inside `create_aircraft_lookup`: keyed by
registration, later duplicates overwriting earlier ones. -/
def buildLookup : List JItem → PyDict JDict → Option (PyDict JDict)
  | [], acc => some acc
  | .obj r :: rest, acc =>
      match dictGet r "registration" with
      | some (.str s) => buildLookup rest (dictSet acc s r)
      | _ => none
  | .scalar _ :: _, _ => none

/-- `ChangeReviewer.create_aircraft_lookup`. -/
def create_aircraft_lookup (d : RegistryDoc) : Option (PyDict JDict) :=
  (getAircraftList d).bind (fun items => buildLookup items [])

/-- Per-side metadata of a change report (`staging_info` /
`production_info` without the constant file-name field). -/
structure SideInfo where
  version : JField
  last_updated : JField
  total_count : JField
deriving DecidableEq, Repr

def registryInfo (d : RegistryDoc) : SideInfo where
  version := (dictGet d "version").getD (.scalar (.str "unknown"))
  last_updated := (dictGet d "last_updated").getD (.scalar (.str "unknown"))
  total_count := (dictGet d "total_count").getD (.scalar (.int 0))

/-- The structured report returned by `ChangeReviewer.analyze_changes`. -/
structure ChangeReport where
  staging_info : SideInfo
  production_info : SideInfo
  added : List (String × JDict)
  removed : List (String × JDict)
  modified : List (String × List (String × JValue × JValue))
deriving DecidableEq, Repr

/-- Registrations in the first lookup but not the second (the set
difference in `analyze_changes`). -/
def diffKeys (A B : PyDict JDict) : List String :=
  (dictKeys A).filter (fun k => !decide (k ∈ dictKeys B))

/-- Registrations common to both lookups. -/
def commonKeys (A B : PyDict JDict) : List String :=
  (dictKeys A).filter (fun k => decide (k ∈ dictKeys B))

/-- One side of the report: the set difference, registration-sorted and
mapped to the full record on the first side. -/
def diffSlice (A B : PyDict JDict) : List (String × JDict) :=
  (pySorted (diffKeys A B)).map (fun reg => (reg, (dictGet A reg).getD []))

/-- The `modified` mapping of `analyze_changes`: each common registration
whose watched-field comparison is non-empty, old values from production
(first lookup argument), new from staging.  Python iterates the common
set in unspecified hash order; the model uses staging insertion order, and
every claim treats `modified` purely as a mapping. -/
def modifiedEntries (sL pL : PyDict JDict) :
    List (String × List (String × JValue × JValue)) :=
  (commonKeys sL pL).filterMap (fun reg =>
    match dictGet pL reg, dictGet sL reg with
    | some po, some so =>
        let changes := compare_aircraft po so
        if changes.isEmpty then none else some (reg, changes)
    | _, _ => none)

/-- The report assembled at the end of `analyze_changes`.  (Python indexes
`staging_aircraft[reg]` for `reg` drawn from that dict's own keys, which
cannot fail; `getD []` is the totalization of that indexing.) -/
def mkReport (staging production : RegistryDoc) (sL pL : PyDict JDict) : ChangeReport where
  staging_info := registryInfo staging
  production_info := registryInfo production
  added := diffSlice sL pL
  removed := diffSlice pL sL
  modified := modifiedEntries sL pL

/-- `ChangeReviewer.analyze_changes` on two parsed registry documents.
`none` models the paths on which CPython raises while building the
lookups (caught only by the driver `review`, which reports failure). -/
def analyze_changes (staging production : RegistryDoc) : Option ChangeReport :=
  (create_aircraft_lookup staging).bind fun sL =>
  (create_aircraft_lookup production).map fun pL =>
    mkReport staging production sL pL

/-- On-disk state of one JSON file. -/
inductive FileState where
  | missing
  | corrupt
  | content (d : RegistryDoc)
deriving DecidableEq, Repr

/-- `ChangeReviewer.load_registry`: a missing file loads as the empty
default snapshot, invalid JSON as an empty record set. -/
def load_registry : FileState → RegistryDoc
  | .missing =>
      [("version", .scalar (.str "0.0.0")),
       ("last_updated", .scalar (.str "1970-01-01T00:00:00+00:00")),
       ("total_count", .scalar (.int 0)),
       ("aircraft", .list [])]
  | .corrupt => [("aircraft", .list []), ("total_count", .scalar (.int 0))]
  | .content d => d

/-- `analyze_changes` as run by the reviewer: load both files, then diff. -/
def analyze_files (staging production : FileState) : Option ChangeReport :=
  analyze_changes (load_registry staging) (load_registry production)

-- ### Diff Engine characterization lemmas

theorem mem_compare_aircraft_iff (o n : JDict) (f : String) (ov nv : JValue) :
    (f, ov, nv) ∈ compare_aircraft o n ↔
      f ∈ watchedFields ∧ ov = pyGet o f ∧ nv = pyGet n f ∧ pyGet o f ≠ pyGet n f := by
  simp only [compare_aircraft, List.mem_filterMap]
  constructor
  · rintro ⟨a, ha, hf⟩
    by_cases h : pyGet o a ≠ pyGet n a
    · rw [if_pos h] at hf
      obtain ⟨rfl, rfl, rfl⟩ : a = f ∧ pyGet o a = ov ∧ pyGet n a = nv := by
        injection hf with h1
        injection h1 with h2 h3
        injection h3 with h4 h5
        exact ⟨h2, h4, h5⟩
      exact ⟨ha, rfl, rfl, h⟩
    · rw [if_neg h] at hf
      exact absurd hf (by simp)
  · rintro ⟨hf, rfl, rfl, hne⟩
    exact ⟨f, hf, by rw [if_pos hne]⟩

theorem compare_aircraft_self (r : JDict) : compare_aircraft r r = [] := by
  simp [compare_aircraft]

theorem mem_diffSlice_iff (A B : PyDict JDict) (k : String) (rec : JDict) :
    (k, rec) ∈ diffSlice A B ↔ dictGet A k = some rec ∧ dictGet B k = none := by
  simp only [diffSlice, List.mem_map]
  constructor
  · rintro ⟨a, ha, heq⟩
    have hak : a = k := congrArg Prod.fst heq
    subst hak
    have hrec : (dictGet A a).getD [] = rec := congrArg Prod.snd heq
    rw [mem_pySorted] at ha
    simp only [diffKeys, List.mem_filter, Bool.not_eq_true', decide_eq_false_iff_not] at ha
    obtain ⟨hmemA, hmemB⟩ := ha
    rw [mem_dictKeys_iff_dictGet_isSome] at hmemA
    obtain ⟨v, hv⟩ := Option.isSome_iff_exists.mp hmemA
    rw [hv] at hrec
    have hv2 : v = rec := hrec
    exact ⟨by rw [hv, hv2], (dictGet_eq_none_iff_not_mem B a).mpr hmemB⟩
  · rintro ⟨h1, h2⟩
    refine ⟨k, ?_, by rw [h1]; rfl⟩
    rw [mem_pySorted]
    simp only [diffKeys, List.mem_filter, Bool.not_eq_true', decide_eq_false_iff_not]
    exact ⟨(mem_dictKeys_iff_dictGet_isSome A k).mpr (by rw [h1]; rfl),
      (dictGet_eq_none_iff_not_mem B k).mp h2⟩

theorem map_fst_diffSlice (A B : PyDict JDict) :
    (diffSlice A B).map (·.1) = pySorted (diffKeys A B) := by
  rw [diffSlice, List.map_map]
  exact List.map_id' _

theorem sorted_map_fst_diffSlice (A B : PyDict JDict) :
    ((diffSlice A B).map (·.1)).Sorted StrLe := by
  rw [map_fst_diffSlice]
  exact sorted_pySorted _

theorem mem_modifiedEntries_iff (sL pL : PyDict JDict) (k : String)
    (cs : List (String × JValue × JValue)) :
    (k, cs) ∈ modifiedEntries sL pL ↔
      ∃ srec prec, dictGet sL k = some srec ∧ dictGet pL k = some prec ∧
        cs = compare_aircraft prec srec ∧ cs ≠ [] := by
  simp only [modifiedEntries, List.mem_filterMap]
  constructor
  · rintro ⟨a, ha, hf⟩
    cases hp : dictGet pL a with
    | none => rw [hp] at hf; exact absurd hf (by simp)
    | some po =>
      cases hs : dictGet sL a with
      | none => rw [hp, hs] at hf; exact absurd hf (by simp)
      | some so =>
        rw [hp, hs] at hf
        simp only at hf
        by_cases hemp : (compare_aircraft po so).isEmpty
        · rw [if_pos hemp] at hf; exact absurd hf (by simp)
        · rw [if_neg hemp] at hf
          obtain ⟨hak, hcs⟩ : a = k ∧ compare_aircraft po so = cs := by
            injection hf with h1
            injection h1 with h2 h3
            exact ⟨h2, h3⟩
          subst hak
          subst hcs
          exact ⟨so, po, hs, hp, rfl, by
            intro hnil
            rw [hnil] at hemp
            exact hemp rfl⟩
  · rintro ⟨srec, prec, hs, hp, rfl, hne⟩
    refine ⟨k, ?_, ?_⟩
    · simp only [commonKeys, List.mem_filter, decide_eq_true_eq]
      exact ⟨(mem_dictKeys_iff_dictGet_isSome sL k).mpr (by rw [hs]; rfl),
        (mem_dictKeys_iff_dictGet_isSome pL k).mpr (by rw [hp]; rfl)⟩
    · rw [hp, hs]
      simp only
      rw [if_neg (by simpa [List.isEmpty_iff] using hne)]

theorem analyze_changes_eq_some (staging production : RegistryDoc) (sL pL : PyDict JDict)
    (hs : create_aircraft_lookup staging = some sL)
    (hp : create_aircraft_lookup production = some pL) :
    analyze_changes staging production = some (mkReport staging production sL pL) := by
  simp [analyze_changes, hs, hp]

/-- Diffing two documents whose lookups coincide yields an empty report
body (shared by the promotion round-trip analysis). -/
theorem mkReport_self_empty (s p : RegistryDoc) (L : PyDict JDict) :
    (mkReport s p L L).added = [] ∧ (mkReport s p L L).removed = [] ∧
      (mkReport s p L L).modified = [] := by
  have hdiff : diffSlice L L = [] := by
    have : diffKeys L L = [] := by
      simp only [diffKeys, List.filter_eq_nil_iff]
      intro k hk
      simp [hk]
    simp [diffSlice, this, pySorted, List.insertionSort]
  refine ⟨hdiff, hdiff, ?_⟩
  simp only [mkReport, modifiedEntries, List.filterMap_eq_nil_iff]
  intro k hk
  cases h : dictGet L k with
  | none => simp
  | some r => simp [compare_aircraft_self r]

-- ### Kernel-evaluable Python string primitives

/-- Python `str.strip()` (whitespace at both ends; the scripts only ever
strip ASCII whitespace). -/
def pyStrip (s : String) : String :=
  String.mk (((s.data.dropWhile Char.isWhitespace).reverse.dropWhile
    Char.isWhitespace).reverse)

/-- Python `str.lower()` (the compared answers are ASCII). -/
def pyLower (s : String) : String := String.mk (s.data.map Char.toLower)

/-- Python `str.startswith(p)`. -/
def strStartsWith (s p : String) : Bool := p.data.isPrefixOf s.data

/-- Python `str.endswith(p)`. -/
def strEndsWith (s p : String) : Bool := p.data.reverse.isPrefixOf s.data.reverse

/-- Python `str.split(sep)` for a one-character separator (empty pieces
included, `"".split(sep) == [""]`). -/
def splitChar (sep : Char) : List Char → List (List Char)
  | [] => [[]]
  | c :: rest =>
      match splitChar sep rest with
      | h :: t => if c = sep then [] :: h :: t else (c :: h) :: t
      | [] => [[c]]

/-- `version.split('.')`. -/
def pySplitDot (s : String) : List String := (splitChar '.' s.data).map String.mk

/-- Python `needle in hay` on strings (substring containment). -/
def containsSub : List Char → List Char → Bool
  | [], needle => needle.isEmpty
  | h :: t, needle => needle.isPrefixOf (h :: t) || containsSub t needle

-- ### Release Manager (release.py)

/-- Python `int(s)` on a string: optional surrounding whitespace, optional
sign, then decimal digits.  (Python additionally accepts underscore digit
separators inside literals; no input in this development uses them.) -/
def pyInt (s : String) : Option Int :=
  let t := (pyStrip s).data
  let core := match t with
    | '-' :: rest => rest
    | '+' :: rest => rest
    | l => l
  if core.length > 0 && core.all Char.isDigit then
    let n : Nat := core.foldl (fun acc c => acc * 10 + (c.toNat - 48)) 0
    some (if t.head? = some '-' then -(n : Int) else (n : Int))
  else none

/-- `parse_version`: split on dots and convert the three components with
`int()`.  The internal `except (ValueError, IndexError)` swallows every
parse failure and yields `(1, 0, 0)` — this function never raises. -/
def parse_version (version : String) : Int × Int × Int :=
  match (pySplitDot version).map pyInt with
  | [some major, some minor, some patch] => (major, minor, patch)
  | _ => (1, 0, 0)

/-- `bump_version`; `none` models the `ValueError` raised on an unknown
bump type (never reached: all call sites pass literals). -/
def bump_version (current : String) (bump_type : String) : Option String :=
  let p := parse_version current
  if bump_type = "patch" then
    some (toString p.1 ++ "." ++ toString p.2.1 ++ "." ++ toString (p.2.2 + 1))
  else if bump_type = "minor" then
    some (toString p.1 ++ "." ++ toString (p.2.1 + 1) ++ ".0")
  else if bump_type = "major" then
    some (toString (p.1 + 1) ++ ".0.0")
  else none

/-- Result of one pass through the `prompt_version_update` loop body. -/
inductive PromptOutcome where
  | accepted (new_version : String) (commit_message : Option String)
  | reprompt
deriving DecidableEq, Repr

/-- One iteration of the `prompt_version_update` loop, given the operator's
(raw) menu choice, custom-version entry and description.  Note the choice-5
branch: `parse_version` is called "to validate the format", but it never
raises, so its `except` re-prompt branch (`"Invalid version format"`) is
dead code and any custom string is accepted verbatim. -/
def prompt_version_step (current choice custom reason : String) : PromptOutcome :=
  let c := pyStrip choice
  let r := pyStrip reason
  if c = "1" then
    match bump_version current "patch" with
    | some v => .accepted v (some (if r ≠ "" then "🏷️ v" ++ v ++ " - " ++ r
        else "🏷️ v" ++ v ++ " - Data updates"))
    | none => .reprompt
  else if c = "2" then
    match bump_version current "minor" with
    | some v => .accepted v (some (if r ≠ "" then "🏷️ v" ++ v ++ " - " ++ r
        else "🏷️ v" ++ v ++ " - New features"))
    | none => .reprompt
  else if c = "3" then
    match bump_version current "major" with
    | some v => .accepted v (some (if r ≠ "" then "🏷️ v" ++ v ++ " - BREAKING: " ++ r
        else "🏷️ v" ++ v ++ " - Breaking changes"))
    | none => .reprompt
  else if c = "4" then .accepted current none
  else if c = "5" then
    let custom_version := pyStrip custom
    .accepted custom_version (some (if r ≠ "" then "🏷️ v" ++ custom_version ++ " - " ++ r
      else "🏷️ v" ++ custom_version ++ " - Custom version"))
  else .reprompt

/-- The filesystem state shared by the release scripts: the VERSION file,
the staging and production snapshots, and the backup directory (a mapping
from file name to file content; `none` = directory absent). -/
structure FS where
  version_file : Option String
  staging : FileState
  production : FileState
  backups_dir : Option (PyDict FileState)
deriving DecidableEq, Repr

/-- `"yes"/"y"` check used for both release and rollback confirmations. -/
def affirmative (s : String) : Bool :=
  pyLower (pyStrip s) == "yes" || pyLower (pyStrip s) == "y"

/-- Python `==` between a top-level field value and an `int`
(`data['total_count'] != len(...)`).  Booleans compare as integers. -/
def pyEqNat : JField → Nat → Bool
  | .scalar (.int m), n => m == (n : Int)
  | .scalar (.bool b), n => (if b then (1 : Int) else 0) == (n : Int)
  | _, _ => false

/-- Python `'registration' not in sample` on the first aircraft entry.  On
an object it is a key test; on a string it is a substring test; on any
other scalar CPython raises `TypeError`, which terminates the script just
like a failed validation does (modelled as `false`). -/
def sampleHasRegistration : JItem → Bool
  | .obj r => (dictGet r "registration").isSome
  | .scalar (.str s) => containsSub s.data "registration".data
  | .scalar _ => false

/-- `validate_staging`: existence, JSON parse, required fields, aircraft
list shape, count consistency, and a `registration` key on the first
record only. -/
def validate_staging (staging : FileState) : Bool :=
  match staging with
  | .missing => false
  | .corrupt => false
  | .content d =>
      (["version", "last_updated", "total_count", "aircraft"].all
        (fun f => (dictGet d f).isSome)) &&
      (match dictGet d "aircraft" with
       | some (.list aircraft) =>
           pyEqNat ((dictGet d "total_count").getD (.scalar .null)) aircraft.length &&
           (match aircraft with
            | [] => true
            | sample :: _ => sampleHasRegistration sample)
       | _ => false)

/-- `backup_production`: nothing to do when production is absent;
otherwise copy the production bytes into the (created-on-demand) backups
directory under a timestamped name.  `shutil.copy2` copies the file
verbatim whatever its content is. -/
def backup_production (fs : FS) (timestamp : String) : FS :=
  match fs.production with
  | .missing => fs
  | st =>
      let backup_file := "aircraft_backup_" ++ timestamp ++ ".json"
      { fs with backups_dir := some (dictSet (fs.backups_dir.getD []) backup_file st) }

/-- The operator interactions and ambient values of one release attempt:
the outcome of the version prompt, whether the VERSION write succeeds, the
confirmation answer, and the two wall-clock timestamps used. -/
structure ReleaseInputs where
  prompt_version : String
  prompt_commit_msg : Option String
  version_write_ok : Bool
  confirm_response : String
  backup_timestamp : String
  release_timestamp : String
deriving DecidableEq, Repr

/-- The try-block of `release_to_production`: backup, verbatim copy of
staging over production, then re-parse production and rewrite it with a
`released_at` stamp.  The fallback branch models the caught exception when
the copied bytes fail to re-parse (unreachable after a passed validation):
production has already been overwritten by the copy at that point. -/
def promote_to_production (fs : FS) (inp : ReleaseInputs) : Bool × FS :=
  let fs1 := backup_production fs inp.backup_timestamp
  match fs1.staging with
  | .content d =>
      (true, { fs1 with production :=
        FileState.content (dictSet d "released_at" (.scalar (.str inp.release_timestamp))) })
  | st => (false, { fs1 with production := st })

/-- `release_to_production`: staging existence check, staging validation,
interactive version decision and VERSION write (skipped when `force`),
interactive confirmation (skipped when `force`), then
backup / promote / stamp.  The git commit of the VERSION change is
external and best-effort (its failure is only a warning) and is not part
of the state.  A failed VERSION write aborts before any production
mutation; an empty/absent commit message means the operator kept the
current version (Python `if commit_message:` truthiness). -/
def release_to_production (fs : FS) (force : Bool) (inp : ReleaseInputs) : Bool × FS :=
  if fs.staging = FileState.missing then (false, fs)
  else if validate_staging fs.staging then
    if force then promote_to_production fs inp
    else if (inp.prompt_commit_msg.getD "") ≠ "" then
      if inp.version_write_ok then
        if affirmative inp.confirm_response then
          promote_to_production { fs with version_file := some inp.prompt_version } inp
        else (false, { fs with version_file := some inp.prompt_version })
      else (false, fs)
    else
      if affirmative inp.confirm_response then promote_to_production fs inp
      else (false, fs)
  else (false, fs)

/-- `backups_dir.glob("aircraft_backup_*.json")` membership. -/
def backupPatternMatch (name : String) : Bool :=
  strStartsWith name "aircraft_backup_" && strEndsWith name ".json"

/-- `sorted(backups_dir.glob("aircraft_backup_*.json"), reverse=True)`:
the matching files, newest first (names embed a sortable timestamp, so
descending name order is descending capture time). -/
def listBackupsDesc (dir : PyDict FileState) : List (String × FileState) :=
  List.insertionSort (fun a b : String × FileState => StrLe b.1 a.1)
    (dir.filter (fun p => backupPatternMatch p.1))

/-- Tail of `rollback_production` from the `selected_backup` assignment:
confirm, then copy the selected backup verbatim over production
(`shutil.copy2`); a non-affirmative answer aborts. -/
def rollback_apply (fs : FS) (backups : List (String × FileState)) (idx : Nat)
    (confirm : String) : Bool × FS :=
  match backups.get? idx with
  | none => (false, fs)
  | some selected =>
      if affirmative confirm then (true, { fs with production := selected.2 })
      else (false, fs)

/-- `rollback_production` from `int(choice)` on: a `ValueError` (the
`none` branch of `pyInt`) or an index outside the 5-entry window aborts;
otherwise the 0-based index is looked up. -/
def rollback_choice (fs : FS) (backups : List (String × FileState))
    (choice confirm : String) : Bool × FS :=
  match pyInt (pyStrip choice) with
  | none => (false, fs)
  | some n =>
      if n - 1 < 0 || n - 1 ≥ ((backups.take 5).length : Int) then (false, fs)
      else rollback_apply fs backups (n - 1).toNat confirm

/-- The body of `rollback_production` once the backups directory exists:
list matching backups newest-first, handle the empty set and the
`'cancel'` answer, then process the numeric selection. -/
def rollback_with_dir (fs : FS) (dir : PyDict FileState) (choice confirm : String) :
    Bool × FS :=
  let backups := listBackupsDesc dir
  if backups.isEmpty then (false, fs)
  else if pyLower (pyStrip choice) = "cancel" then (false, fs)
  else rollback_choice fs backups choice confirm

/-- `rollback_production`: nothing to do without a backups directory. -/
def rollback_production (fs : FS) (choice confirm : String) : Bool × FS :=
  match fs.backups_dir with
  | none => (false, fs)
  | some dir => rollback_with_dir fs dir choice confirm

-- ### Validator (validate.py)

/-- The distinguishable outcomes of `validate_custom_rules`, carrying the
reported datum (the offending registration value, or the failing index). -/
inductive CustomRulesResult where
  | ok
  | notAnObject (index : Nat)
  | duplicateRegistration (value : JValue)
  | missingRegistration (index : Nat)
deriving DecidableEq, Repr

/-- First loop of `validate_custom_rules`: reject non-object entries and
report the first registration value seen twice (falsy registrations are
not entered into the seen list). -/
def findDuplicate : List JItem → Nat → List JValue → Option CustomRulesResult
  | [], _, _ => none
  | .scalar _ :: _, idx, _ => some (.notAnObject idx)
  | .obj r :: rest, idx, seen =>
      let registration := pyGet r "registration"
      if jTruthy registration then
        if registration ∈ seen then some (.duplicateRegistration registration)
        else findDuplicate rest (idx + 1) (seen ++ [registration])
      else findDuplicate rest (idx + 1) seen

/-- Second loop of `validate_custom_rules`: every record must have a
truthy `registration`.  (The scalar branch is unreachable: the first loop
already rejected non-objects.) -/
def findMissingRegistration : List JItem → Nat → Option CustomRulesResult
  | [], _ => none
  | .obj r :: rest, idx =>
      match dictGet r "registration" with
      | some v => if jTruthy v then findMissingRegistration rest (idx + 1)
          else some (.missingRegistration idx)
      | none => some (.missingRegistration idx)
  | .scalar _ :: _, idx => some (.missingRegistration idx)

/-- `validate_custom_rules` on a parsed document
(`data.get('aircraft', [])`). -/
def validate_custom_rules (d : RegistryDoc) : CustomRulesResult :=
  let items := match dictGet d "aircraft" with
    | some (.list l) => l
    | _ => []
  match findDuplicate items 0 [] with
  | some r => r
  | none => (findMissingRegistration items 0).getD .ok

/-- Python `isinstance(x, int)` reading of a field value (booleans are
ints in Python). -/
def asPyInt : JField → Option Int
  | .scalar (.int n) => some n
  | .scalar (.bool b) => some (if b then 1 else 0)
  | _ => none

/-- `validate_basic_structure`: required fields, `aircraft` a list,
`total_count` an int equal to the list length.  Note: NO duplicate or
per-record registration checks happen on this path. -/
def validate_basic_structure (data_file : FileState) : Bool :=
  match data_file with
  | .missing => false
  | .corrupt => false
  | .content d =>
      (["version", "last_updated", "total_count", "aircraft"].all
        (fun f => (dictGet d f).isSome)) &&
      (match dictGet d "aircraft" with
       | some (.list aircraft) =>
           (match asPyInt ((dictGet d "total_count").getD (.scalar .null)) with
            | some n => n == (aircraft.length : Int)
            | none => false)
       | _ => false)

/-- `validate_aircraft_registry`.  The jsonschema check is an external
collaborator, abstracted as the `schema_ok` predicate; `schema_present`
is whether `schema.json` exists.  Without a schema the function falls
back to `validate_basic_structure` alone — `validate_custom_rules` is
NOT run on that path. -/
def validate_aircraft_registry (data_file : FileState) (schema_present : Bool)
    (schema_ok : RegistryDoc → Bool) : Bool :=
  match data_file with
  | .missing => false
  | _ =>
      if !schema_present then validate_basic_structure data_file
      else
        match data_file with
        | .corrupt => false
        | .content d => schema_ok d && (validate_custom_rules d == .ok)
        | .missing => false

-- ### Source Importer (sync_aircraft.py)

/-- A decoded CSV row: column name to raw cell text (missing mapped
columns read as `""` via `row.get(col, "")`). -/
abbrev CsvRow := List (String × String)

/-- `AircraftSyncer.parse_csv_data`: extract the four mapped columns
(note the leading spaces in the source's column names), drop rows missing
any of the three essential fields, parse `mtom` as an int falling back to
`None`. -/
def parse_csv_data (rows : List CsvRow) : List JDict :=
  rows.filterMap (fun row =>
    let registration := pyStrip ((dictGet row " Registration").getD "")
    let icao_type := pyStrip ((dictGet row " ICAO Aircraft Type").getD "")
    let aircraft_type := pyStrip ((dictGet row " Aircraft Type").getD "")
    let mtom_str := pyStrip ((dictGet row " MTOM").getD "")
    if registration = "" || icao_type = "" || aircraft_type = "" then none
    else
      let mtom : JValue := if mtom_str = "" then .null
        else match pyInt mtom_str with
          | some n => .int n
          | none => .null
      some [("registration", .str registration),
            ("icao_aircraft_type", .str icao_type),
            ("aircraft_type", .str aircraft_type),
            ("mtom", mtom)])

/-- The registration→record dict built at the top of `apply_overrides`
(`aircraft["registration"]` indexing; later duplicates overwrite).
`none` models the `KeyError` on a record without a registration (or a
non-string key outside the data model). -/
def buildRecordLookup : List JDict → PyDict JDict → Option (PyDict JDict)
  | [], acc => some acc
  | r :: rest, acc =>
      match dictGet r "registration" with
      | some (.str s) => buildRecordLookup rest (dictSet acc s r)
      | _ => none

/-- One iteration of the override loop in `apply_overrides`: skip a
reserved-prefix comment key, merge into an existing record (override
fields win) or synthesize a new record from `{"registration": reg}`
updated with the override fields. -/
def overrideStep (dict : PyDict JDict) (p : String × JDict) : PyDict JDict :=
  if strStartsWith p.1 "_" then dict
  else
    match dictGet dict p.1 with
    | some existing => dictSet dict p.1 (dictUpdate existing p.2)
    | none => dictSet dict p.1 (dictUpdate [("registration", .str p.1)] p.2)

/-- The override loop of `apply_overrides`. -/
def applyOverridesFold (overrides : PyDict JDict) (dict : PyDict JDict) : PyDict JDict :=
  overrides.foldl overrideStep dict

/-- `AircraftSyncer.apply_overrides`.  An empty overrides mapping returns
the input list unchanged without building the lookup. -/
def apply_overrides (overrides : PyDict JDict) (aircraft_list : List JDict) :
    Option (List JDict) :=
  if overrides.isEmpty then some aircraft_list
  else
    (buildRecordLookup aircraft_list []).map (fun dict =>
      (applyOverridesFold overrides dict).map (·.2))

/-- Sort key used by `create_registry` (`x["registration"]`; every record
reaching this point carries a string registration — on anything else
CPython would raise and nothing would be written). -/
def registrationKey (r : JDict) : String :=
  match dictGet r "registration" with
  | some (.str s) => s
  | _ => ""

/-- The `aircraft_list.sort(key=...)` call inside `create_registry`. -/
def sortByRegistration (aircraft_list : List JDict) : List JDict :=
  List.insertionSort (fun a b => StrLe (registrationKey a) (registrationKey b)) aircraft_list

/-- `AircraftSyncer.create_registry`: sort by registration, stamp the
fixed fresh version, the current time and the count. -/
def create_registry (aircraft_list : List JDict) (now : String) : RegistryDoc :=
  let sorted := sortByRegistration aircraft_list
  [("version", .scalar (.str "1.0.0")),
   ("last_updated", .scalar (.str now)),
   ("total_count", .scalar (.int sorted.length)),
   ("aircraft", .list (sorted.map JItem.obj))]

/-- Terminal outcomes of `AircraftSyncer.sync`.  `emptyResult` is the
zero-usable-rows path: it prints its own message and calls `exit(1)`
directly (a `SystemExit`, which the generic `except Exception` handler
does not catch), so it is distinguished from `failed`, the generic
exception path that reports "Synchronization failed". -/
inductive SyncOutcome where
  | emptyResult
  | failed
  | success
deriving DecidableEq, Repr

/-- `AircraftSyncer.sync`, from the fetched-and-decoded CSV rows
(`none` = the fetch or decode raised).  Schema validation of the built
registry is advisory only — the registry is written to staging even when
it fails — so it does not appear in the state transition. -/
def sync (fetched : Option (List CsvRow)) (overrides : PyDict JDict) (now : String)
    (staging : FileState) : SyncOutcome × FileState :=
  match fetched with
  | none => (.failed, staging)
  | some rows =>
      let aircraft_list := parse_csv_data rows
      if aircraft_list.isEmpty then (.emptyResult, staging)
      else
        match apply_overrides overrides aircraft_list with
        | none => (.failed, staging)
        | some merged => (.success, .content (create_registry merged now))

/-- Exit code of the importer entry point for each outcome (`exit(1)`
directly for `emptyResult`; `exit(0 if success else 1)` in `main`). -/
def sync_exit_code : SyncOutcome → Nat
  | .emptyResult => 1
  | .failed => 1
  | .success => 0

-- ### Supporting lemmas for the release flow

theorem validate_staging_content (st : FileState) (h : validate_staging st = true) :
    ∃ d, st = FileState.content d := by
  cases st with
  | missing => simp [validate_staging] at h
  | corrupt => simp [validate_staging] at h
  | content d => exact ⟨d, rfl⟩

theorem backup_production_staging (fs : FS) (ts : String) :
    (backup_production fs ts).staging = fs.staging := by
  unfold backup_production
  cases hp : fs.production <;> simp [hp]

theorem backup_production_production (fs : FS) (ts : String) :
    (backup_production fs ts).production = fs.production := by
  unfold backup_production
  cases hp : fs.production <;> simp [hp]

theorem backup_production_version_file (fs : FS) (ts : String) :
    (backup_production fs ts).version_file = fs.version_file := by
  unfold backup_production
  cases hp : fs.production <;> simp [hp]

/-- The final state written by the stamp step: production holds the
promoted document with `released_at` set. -/
def stampProduction (fs : FS) (d : RegistryDoc) (ts : String) : FS :=
  { fs with production := FileState.content (dictSet d "released_at" (.scalar (.str ts))) }

theorem promote_of_content (fs : FS) (inp : ReleaseInputs) (d : RegistryDoc)
    (hd : fs.staging = FileState.content d) :
    promote_to_production fs inp =
      (true, stampProduction (backup_production fs inp.backup_timestamp) d
        inp.release_timestamp) := by
  unfold promote_to_production stampProduction
  simp only [backup_production_staging, hd]

/-- Anatomy of a successful release: validation passed on a staging
document `d`, and the result is the backed-up state (of `fs` up to the
VERSION file) with production set to `d` plus the `released_at` stamp. -/
theorem release_success_shape (fs : FS) (force : Bool) (inp : ReleaseInputs) (fs1 : FS)
    (h : release_to_production fs force inp = (true, fs1)) :
    ∃ d fs0, fs.staging = FileState.content d ∧ validate_staging fs.staging = true ∧
      fs0.staging = fs.staging ∧ fs0.production = fs.production ∧
      fs0.backups_dir = fs.backups_dir ∧
      fs1 = stampProduction (backup_production fs0 inp.backup_timestamp) d
        inp.release_timestamp := by
  unfold release_to_production at h
  by_cases h1 : fs.staging = FileState.missing
  · rw [if_pos h1] at h
    exact absurd (congrArg Prod.fst h) (by simp)
  · rw [if_neg h1] at h
    by_cases h2 : validate_staging fs.staging
    · rw [if_pos h2] at h
      obtain ⟨d, hd⟩ := validate_staging_content fs.staging h2
      by_cases hf : force = true
      · rw [if_pos hf, promote_of_content fs inp d hd] at h
        injection h with h3 h4
        exact ⟨d, fs, hd, h2, rfl, rfl, rfl, h4.symm⟩
      · rw [if_neg hf] at h
        by_cases hm : (inp.prompt_commit_msg.getD "") ≠ ""
        · rw [if_pos hm] at h
          by_cases hw : inp.version_write_ok = true
          · rw [if_pos hw] at h
            by_cases hc : affirmative inp.confirm_response = true
            · rw [if_pos hc, promote_of_content { fs with
                version_file := some inp.prompt_version } inp d hd] at h
              injection h with h3 h4
              exact ⟨d, { fs with version_file := some inp.prompt_version },
                hd, h2, rfl, rfl, rfl, h4.symm⟩
            · rw [if_neg hc] at h
              exact absurd (congrArg Prod.fst h) (by simp)
          · rw [if_neg hw] at h
            exact absurd (congrArg Prod.fst h) (by simp)
        · rw [if_neg hm] at h
          by_cases hc : affirmative inp.confirm_response = true
          · rw [if_pos hc, promote_of_content fs inp d hd] at h
            injection h with h3 h4
            exact ⟨d, fs, hd, h2, rfl, rfl, rfl, h4.symm⟩
          · rw [if_neg hc] at h
            exact absurd (congrArg Prod.fst h) (by simp)
    · rw [if_neg h2] at h
      exact absurd (congrArg Prod.fst h) (by simp)

-- ### Claim C3

/-- C3: every release attempt that terminates in ABORT — missing staging
file, failed staging validation, failed version-file update, or a
non-affirmative confirmation — leaves the production file untouched (and
also staging and the backup set: the backup/promote/stamp steps are never
reached).  Only the VERSION file may already have been rewritten. -/
theorem c3_abort_preserves_production (fs : FS) (force : Bool) (inp : ReleaseInputs)
    (fs1 : FS) (h : release_to_production fs force inp = (false, fs1)) :
    fs1.production = fs.production ∧ fs1.staging = fs.staging ∧
      fs1.backups_dir = fs.backups_dir := by
  unfold release_to_production at h
  by_cases h1 : fs.staging = FileState.missing
  · rw [if_pos h1] at h
    injection h with h3 h4
    rw [← h4]
    exact ⟨rfl, rfl, rfl⟩
  · rw [if_neg h1] at h
    by_cases h2 : validate_staging fs.staging
    · rw [if_pos h2] at h
      obtain ⟨d, hd⟩ := validate_staging_content fs.staging h2
      by_cases hf : force = true
      · rw [if_pos hf, promote_of_content fs inp d hd] at h
        exact absurd (congrArg Prod.fst h) (by simp)
      · rw [if_neg hf] at h
        by_cases hm : (inp.prompt_commit_msg.getD "") ≠ ""
        · rw [if_pos hm] at h
          by_cases hw : inp.version_write_ok = true
          · rw [if_pos hw] at h
            by_cases hc : affirmative inp.confirm_response = true
            · rw [if_pos hc, promote_of_content { fs with
                version_file := some inp.prompt_version } inp d hd] at h
              exact absurd (congrArg Prod.fst h) (by simp)
            · rw [if_neg hc] at h
              injection h with h3 h4
              rw [← h4]
              exact ⟨rfl, rfl, rfl⟩
          · rw [if_neg hw] at h
            injection h with h3 h4
            rw [← h4]
            exact ⟨rfl, rfl, rfl⟩
        · rw [if_neg hm] at h
          by_cases hc : affirmative inp.confirm_response = true
          · rw [if_pos hc, promote_of_content fs inp d hd] at h
            exact absurd (congrArg Prod.fst h) (by simp)
          · rw [if_neg hc] at h
            injection h with h3 h4
            rw [← h4]
            exact ⟨rfl, rfl, rfl⟩
    · rw [if_neg h2] at h
      injection h with h3 h4
      rw [← h4]
      exact ⟨rfl, rfl, rfl⟩

/-- Release attempt aborted by a non-affirmative confirmation. -/
def c3ExampleFS : FS where
  version_file := some "1.0.0"
  staging := FileState.content
    [("version", .scalar (.str "1.0.0")), ("last_updated", .scalar (.str "t")),
     ("total_count", .scalar (.int 1)),
     ("aircraft", .list [.obj [("registration", .str "HB-ABC")]])]
  production := FileState.content [("version", .scalar (.str "0.9.0"))]
  backups_dir := none

def c3ExampleInputs : ReleaseInputs where
  prompt_version := "1.0.1"
  prompt_commit_msg := some "🏷️ v1.0.1 - x"
  version_write_ok := true
  confirm_response := "no"
  backup_timestamp := "20260101_000000"
  release_timestamp := "2026-01-01T00:00:00"

theorem c3_abort_preserves_production_witness :
    (release_to_production c3ExampleFS false c3ExampleInputs).2.production =
        c3ExampleFS.production ∧
      (release_to_production c3ExampleFS false c3ExampleInputs).2.staging =
        c3ExampleFS.staging ∧
      (release_to_production c3ExampleFS false c3ExampleInputs).2.backups_dir =
        c3ExampleFS.backups_dir :=
  c3_abort_preserves_production c3ExampleFS false c3ExampleInputs
    (release_to_production c3ExampleFS false c3ExampleInputs).2 (by rfl)

-- ### Claim C5

/-- C5 (code bug): in the VERSION_DECISION step, a custom version string
that does not parse as three dot-separated integers is supposed to be
rejected and re-prompted; instead `parse_version` swallows its own
`ValueError` and returns `(1, 0, 0)`, so the literal string `"abc"` is
accepted as the new version (the outcome is `accepted`, never
`reprompt`). -/
theorem c5_malformed_custom_version_accepted :
    prompt_version_step "1.0.0" "5" "abc" "fix" =
        PromptOutcome.accepted "abc" (some "🏷️ vabc - fix") ∧
      parse_version "abc" = (1, 0, 0) ∧
      prompt_version_step "1.0.0" "5" "abc" "fix" ≠ PromptOutcome.reprompt :=
  ⟨by decide, by decide, by decide⟩

-- ### Claim C6

/-- C6: an import run in which zero usable rows survive filtering stops on
the distinguished empty-result path (separate from the generic failure
path), writes no staging file, and exits with code 1. -/
theorem c6_zero_rows_distinguished_failure (rows : List CsvRow) (overrides : PyDict JDict)
    (now : String) (staging : FileState) (h : parse_csv_data rows = []) :
    sync (some rows) overrides now staging = (SyncOutcome.emptyResult, staging) ∧
      sync_exit_code (sync (some rows) overrides now staging).1 = 1 ∧
      SyncOutcome.emptyResult ≠ SyncOutcome.failed := by
  have he : (parse_csv_data rows).isEmpty = true := by rw [h]; rfl
  refine ⟨?_, ?_, by decide⟩
  · simp [sync, he]
  · simp [sync, he, sync_exit_code]

/-- One CSV row whose essential fields are blank, so it is filtered out. -/
def c6ExampleRows : List CsvRow :=
  [[(" Registration", " "), (" ICAO Aircraft Type", "L2J"), (" Aircraft Type", "Foo")]]

theorem c6_zero_rows_distinguished_failure_witness :
    sync (some c6ExampleRows) [] "2026-01-01T00:00:00" FileState.missing =
        (SyncOutcome.emptyResult, FileState.missing) ∧
      sync_exit_code (sync (some c6ExampleRows) [] "2026-01-01T00:00:00"
        FileState.missing).1 = 1 ∧
      SyncOutcome.emptyResult ≠ SyncOutcome.failed :=
  c6_zero_rows_distinguished_failure c6ExampleRows [] "2026-01-01T00:00:00"
    FileState.missing (by rfl)

-- ### Claim C2

/-- C2: a successful promotion of a valid staging snapshot (one without a
pre-existing `released_at`, as the importer writes them) leaves production
equal to the staging document plus exactly one appended `released_at`
binding, and diffing the new production against the original staging gives
an empty report body. -/
theorem c2_promotion_roundtrip (fs : FS) (force : Bool) (inp : ReleaseInputs) (fs1 : FS)
    (d : RegistryDoc) (L : PyDict JDict)
    (hstag : fs.staging = FileState.content d)
    (hrel : dictGet d "released_at" = none)
    (hlook : create_aircraft_lookup d = some L)
    (h : release_to_production fs force inp = (true, fs1)) :
    fs1.production = FileState.content
        (d ++ [("released_at", JField.scalar (JValue.str inp.release_timestamp))]) ∧
      ∃ r, analyze_changes d
          (d ++ [("released_at", JField.scalar (JValue.str inp.release_timestamp))]) =
            some r ∧
        r.added = [] ∧ r.removed = [] ∧ r.modified = [] := by
  obtain ⟨d0, fs0, hs0, hv, _, _, _, hfs1⟩ := release_success_shape fs force inp fs1 h
  rw [hstag] at hs0
  have hdd : d0 = d := by
    injection hs0 with h1
    exact h1.symm
  subst hdd
  have happ : dictSet d0 "released_at" (JField.scalar (JValue.str inp.release_timestamp)) =
      d0 ++ [("released_at", JField.scalar (JValue.str inp.release_timestamp))] :=
    dictSet_eq_append_of_not_mem d0 _ _ hrel
  constructor
  · rw [hfs1]
    show FileState.content _ = _
    rw [happ]
  · have hga : getAircraftList
        (d0 ++ [("released_at", JField.scalar (JValue.str inp.release_timestamp))]) =
        getAircraftList d0 := by
      unfold getAircraftList
      rw [← happ, dictGet_dictSet_ne d0 "released_at" "aircraft" _ (by decide)]
    have hlook2 : create_aircraft_lookup
        (d0 ++ [("released_at", JField.scalar (JValue.str inp.release_timestamp))]) =
        some L := by
      have hcongr : create_aircraft_lookup
          (d0 ++ [("released_at", JField.scalar (JValue.str inp.release_timestamp))]) =
          create_aircraft_lookup d0 := by
        unfold create_aircraft_lookup
        rw [hga]
      rw [hcongr, hlook]
    exact ⟨mkReport d0 _ L L, analyze_changes_eq_some _ _ _ _ hlook hlook2,
      mkReport_self_empty _ _ L⟩

def c2ExampleDoc : RegistryDoc :=
  [("version", .scalar (.str "1.0.0")), ("last_updated", .scalar (.str "t")),
   ("total_count", .scalar (.int 1)),
   ("aircraft", .list [.obj [("registration", .str "HB-AAA")]])]

def c2ExampleFS : FS where
  version_file := none
  staging := FileState.content c2ExampleDoc
  production := FileState.missing
  backups_dir := none

def c2ExampleInputs : ReleaseInputs where
  prompt_version := "1.0.0"
  prompt_commit_msg := none
  version_write_ok := true
  confirm_response := "yes"
  backup_timestamp := "20260101_000000"
  release_timestamp := "2026-01-01T00:00:00"

theorem c2_promotion_roundtrip_witness :
    (release_to_production c2ExampleFS true c2ExampleInputs).2.production =
        FileState.content (c2ExampleDoc ++ [("released_at",
          JField.scalar (JValue.str c2ExampleInputs.release_timestamp))]) ∧
      ∃ r, analyze_changes c2ExampleDoc (c2ExampleDoc ++ [("released_at",
          JField.scalar (JValue.str c2ExampleInputs.release_timestamp))]) = some r ∧
        r.added = [] ∧ r.removed = [] ∧ r.modified = [] :=
  c2_promotion_roundtrip c2ExampleFS true c2ExampleInputs
    (release_to_production c2ExampleFS true c2ExampleInputs).2 c2ExampleDoc
    [("HB-AAA", [("registration", JValue.str "HB-AAA")])]
    (by rfl) (by rfl) (by rfl) (by rfl)

-- ### Claim C8

/-- The invariant `total_count == len(aircraft)` (Python `==`, so booleans
compare as integers). -/
def total_count_ok (d : RegistryDoc) : Prop :=
  ∃ tc items, dictGet d "total_count" = some tc ∧
    dictGet d "aircraft" = some (JField.list items) ∧ pyEqNat tc items.length = true

theorem validate_staging_total_count (d : RegistryDoc)
    (h : validate_staging (FileState.content d) = true) : total_count_ok d := by
  unfold validate_staging at h
  rw [Bool.and_eq_true] at h
  obtain ⟨hreq, hrest⟩ := h
  cases ha : dictGet d "aircraft" with
  | none => rw [ha] at hrest; simp at hrest
  | some f =>
    cases f with
    | scalar v => rw [ha] at hrest; simp at hrest
    | list items =>
      rw [ha] at hrest
      rw [Bool.and_eq_true] at hrest
      obtain ⟨hcount, _⟩ := hrest
      have htc : (dictGet d "total_count").isSome = true := by
        rw [List.all_eq_true] at hreq
        exact hreq "total_count" (by simp)
      obtain ⟨tc, htc⟩ := Option.isSome_iff_exists.mp htc
      refine ⟨tc, items, htc, ha, ?_⟩
      rw [htc] at hcount
      exact hcount

/-- C8: after every successful write — the importer's registry assembly
and the release manager's promotion-plus-stamp — the written snapshot
satisfies `total_count == len(aircraft)`. -/
theorem c8_total_count_invariant :
    (∀ (l : List JDict) (now : String), total_count_ok (create_registry l now)) ∧
    (∀ (fs : FS) (force : Bool) (inp : ReleaseInputs) (fs1 : FS),
      release_to_production fs force inp = (true, fs1) →
      ∃ d1, fs1.production = FileState.content d1 ∧ total_count_ok d1) := by
  constructor
  · intro l now
    exact ⟨.scalar (.int (sortByRegistration l).length),
      (sortByRegistration l).map JItem.obj, rfl, rfl, by simp [pyEqNat]⟩
  · intro fs force inp fs1 h
    obtain ⟨d, fs0, hs, hv, _, _, _, hfs1⟩ := release_success_shape fs force inp fs1 h
    rw [hs] at hv
    have hok := validate_staging_total_count d hv
    refine ⟨dictSet d "released_at" (.scalar (.str inp.release_timestamp)),
      by rw [hfs1]; rfl, ?_⟩
    obtain ⟨tc, items, htc, ha, heq⟩ := hok
    exact ⟨tc, items, by rw [dictGet_dictSet_ne _ _ _ _ (by decide), htc],
      by rw [dictGet_dictSet_ne _ _ _ _ (by decide), ha], heq⟩

def c8ExampleDoc : RegistryDoc :=
  [("version", .scalar (.str "1.0.0")), ("last_updated", .scalar (.str "t")),
   ("total_count", .scalar (.int 1)),
   ("aircraft", .list [.obj [("registration", .str "HB-BBB")]])]

def c8ExampleFS : FS where
  version_file := none
  staging := FileState.content c8ExampleDoc
  production := FileState.missing
  backups_dir := none

def c8ExampleInputs : ReleaseInputs where
  prompt_version := "1.0.0"
  prompt_commit_msg := none
  version_write_ok := true
  confirm_response := "yes"
  backup_timestamp := "20260102_000000"
  release_timestamp := "2026-01-02T00:00:00"

theorem c8_total_count_invariant_witness :
    total_count_ok (create_registry [[("registration", JValue.str "HB-BBB")]] "t") ∧
      ∃ d1, (release_to_production c8ExampleFS true c8ExampleInputs).2.production =
          FileState.content d1 ∧ total_count_ok d1 :=
  ⟨c8_total_count_invariant.1 [[("registration", JValue.str "HB-BBB")]] "t",
   c8_total_count_invariant.2 c8ExampleFS true c8ExampleInputs
     (release_to_production c8ExampleFS true c8ExampleInputs).2 (by rfl)⟩

-- ### Claim C10

/-- C10: the reviewer's loader never fails — a missing file loads as the
empty default snapshot (version "0.0.0", zero aircraft) and invalid JSON
as an empty record set — so diffing any staging snapshot against a
missing or corrupt production file reports exactly the staging records as
added and nothing as removed or modified. -/
theorem c10_missing_or_corrupt_production (sf pf : FileState) (L : PyDict JDict)
    (hp : pf = FileState.missing ∨ pf = FileState.corrupt)
    (hlook : create_aircraft_lookup (load_registry sf) = some L) :
    load_registry FileState.missing =
        [("version", .scalar (.str "0.0.0")),
         ("last_updated", .scalar (.str "1970-01-01T00:00:00+00:00")),
         ("total_count", .scalar (.int 0)),
         ("aircraft", .list [])] ∧
      load_registry FileState.corrupt =
        [("aircraft", .list []), ("total_count", .scalar (.int 0))] ∧
      ∃ r, analyze_files sf pf = some r ∧ r.removed = [] ∧ r.modified = [] ∧
        (∀ k rec, (k, rec) ∈ r.added ↔ dictGet L k = some rec) := by
  refine ⟨rfl, rfl, ?_⟩
  have hpl : create_aircraft_lookup (load_registry pf) = some [] := by
    rcases hp with h | h <;> subst h <;> rfl
  refine ⟨mkReport (load_registry sf) (load_registry pf) L [],
    analyze_changes_eq_some _ _ _ _ hlook hpl, ?_, ?_, ?_⟩
  · rfl
  · show modifiedEntries L [] = []
    simp [modifiedEntries, commonKeys, dictKeys]
  · intro k rec
    show (k, rec) ∈ diffSlice L [] ↔ _
    rw [mem_diffSlice_iff]
    simp [dictGet]

def c10ExampleDoc : RegistryDoc :=
  [("version", .scalar (.str "1.0.0")), ("last_updated", .scalar (.str "t")),
   ("total_count", .scalar (.int 1)),
   ("aircraft", .list [.obj [("registration", .str "HB-CCC")]])]

theorem c10_missing_or_corrupt_production_witness :
    load_registry FileState.missing =
        [("version", .scalar (.str "0.0.0")),
         ("last_updated", .scalar (.str "1970-01-01T00:00:00+00:00")),
         ("total_count", .scalar (.int 0)),
         ("aircraft", .list [])] ∧
      load_registry FileState.corrupt =
        [("aircraft", .list []), ("total_count", .scalar (.int 0))] ∧
      ∃ r, analyze_files (FileState.content c10ExampleDoc) FileState.corrupt = some r ∧
        r.removed = [] ∧ r.modified = [] ∧
        (∀ k rec, (k, rec) ∈ r.added ↔
          dictGet [("HB-CCC", [("registration", JValue.str "HB-CCC")])] k = some rec) :=
  c10_missing_or_corrupt_production (FileState.content c10ExampleDoc) FileState.corrupt
    [("HB-CCC", [("registration", JValue.str "HB-CCC")])] (Or.inr rfl) (by rfl)


-- ### Claim C9

theorem rollback_production_dir (fs : FS) (dir : PyDict FileState) (choice confirm : String)
    (h : fs.backups_dir = some dir) :
    rollback_production fs choice confirm = rollback_with_dir fs dir choice confirm := by
  unfold rollback_production
  rw [h]

theorem rollback_apply_cases (fs : FS) (backups : List (String × FileState)) (idx : Nat)
    (confirm : String) :
    rollback_apply fs backups idx confirm = (false, fs) ∨
      ∃ st, rollback_apply fs backups idx confirm = (true, { fs with production := st }) := by
  cases hg : backups.get? idx with
  | none => exact Or.inl (by simp only [rollback_apply, hg])
  | some selected =>
    by_cases ha : affirmative confirm = true
    · exact Or.inr ⟨selected.2, by simp only [rollback_apply, hg]; rw [if_pos ha]⟩
    · exact Or.inl (by simp only [rollback_apply, hg]; rw [if_neg ha])

/-- Every run of `rollback_production` either aborts with the filesystem
untouched or restores some backup's bytes into production. -/
theorem rollback_production_cases (fs : FS) (choice confirm : String) :
    rollback_production fs choice confirm = (false, fs) ∨
      ∃ st, rollback_production fs choice confirm = (true, { fs with production := st }) := by
  cases hdir : fs.backups_dir with
  | none =>
    refine Or.inl ?_
    unfold rollback_production
    rw [hdir]
  | some dir =>
    rw [rollback_production_dir fs dir choice confirm hdir]
    unfold rollback_with_dir
    by_cases he : (listBackupsDesc dir).isEmpty = true
    · exact Or.inl (by rw [if_pos he])
    · rw [if_neg he]
      by_cases hc : pyLower (pyStrip choice) = "cancel"
      · exact Or.inl (by rw [if_pos hc])
      · rw [if_neg hc]
        cases hpi : pyInt (pyStrip choice) with
        | none => exact Or.inl (by simp only [rollback_choice, hpi])
        | some n =>
          by_cases hr : (decide (n - 1 < 0) ||
              decide (n - 1 ≥ (((listBackupsDesc dir).take 5).length : Int))) = true
          · refine Or.inl ?_
            simp only [rollback_choice, hpi]
            rw [if_pos hr]
          · have hred : rollback_choice fs (listBackupsDesc dir) choice confirm =
                rollback_apply fs (listBackupsDesc dir) (n - 1).toNat confirm := by
              simp only [rollback_choice, hpi]
              rw [if_neg hr]
            rw [hred, ← hdir]
            exact rollback_apply_cases fs (listBackupsDesc dir) (n - 1).toNat confirm

theorem rollback_success (fs : FS) (dir : PyDict FileState) (choice confirm : String)
    (i : Nat) (b : String × FileState)
    (hdir : fs.backups_dir = some dir)
    (hcancel : pyLower (pyStrip choice) ≠ "cancel")
    (hint : pyInt (pyStrip choice) = some ((i : Int) + 1))
    (hi5 : i < 5)
    (hget : (listBackupsDesc dir).get? i = some b)
    (haff : affirmative confirm = true) :
    rollback_production fs choice confirm = (true, { fs with production := b.2 }) := by
  have hlen : i < (listBackupsDesc dir).length := by
    by_contra hge
    rw [List.get?_eq_none.mpr (Nat.le_of_not_lt hge)] at hget
    exact absurd hget (by simp)
  have he : ¬ (listBackupsDesc dir).isEmpty = true := by
    cases hl : listBackupsDesc dir with
    | nil => rw [hl] at hlen; simp at hlen
    | cons a t => simp [hl]
  have h1 : ((i : Int) + 1 - 1) = (i : Int) := by ring
  have hrProp : ¬(((i : Int) + 1 - 1 < 0) ∨
      ((i : Int) + 1 - 1 ≥ (((listBackupsDesc dir).take 5).length : Int))) := by
    rw [h1]
    push_neg
    refine ⟨Int.natCast_nonneg i, ?_⟩
    rw [List.length_take]
    push_cast
    omega
  have hr : ¬((decide ((i : Int) + 1 - 1 < 0) ||
      decide ((i : Int) + 1 - 1 ≥ (((listBackupsDesc dir).take 5).length : Int))) = true) := by
    simp only [Bool.or_eq_true, decide_eq_true_eq]
    exact hrProp
  have hg2 : (listBackupsDesc dir).get? ((i : Int) + 1 - 1).toNat = some b := by
    rw [h1, Int.toNat_natCast]
    exact hget
  rw [rollback_production_dir fs dir choice confirm hdir]
  unfold rollback_with_dir
  rw [if_neg he, if_neg hcancel]
  simp only [rollback_choice, hint]
  rw [if_neg hr]
  simp only [rollback_apply, hg2]
  rw [if_pos haff]

/-- C9: rollback with a valid confirmed in-window selection `i+1` makes
production byte-identical to the i-th newest matching backup; every abort
(invalid, out-of-range, non-numeric, cancel, unconfirmed, no backups)
returns the filesystem unchanged; and no run ever touches staging or the
backup set. -/
theorem c9_rollback_correct :
    (∀ (fs : FS) (dir : PyDict FileState) (choice confirm : String) (i : Nat)
       (b : String × FileState),
      fs.backups_dir = some dir →
      pyLower (pyStrip choice) ≠ "cancel" →
      pyInt (pyStrip choice) = some ((i : Int) + 1) →
      i < 5 →
      (listBackupsDesc dir).get? i = some b →
      affirmative confirm = true →
      rollback_production fs choice confirm = (true, { fs with production := b.2 })) ∧
    (∀ (fs : FS) (choice confirm : String) (fs1 : FS),
      rollback_production fs choice confirm = (false, fs1) → fs1 = fs) ∧
    (∀ (fs : FS) (choice confirm : String),
      (rollback_production fs choice confirm).2.staging = fs.staging ∧
      (rollback_production fs choice confirm).2.backups_dir = fs.backups_dir) := by
  refine ⟨fun fs dir choice confirm i b hdir hc hi hi5 hg ha =>
    rollback_success fs dir choice confirm i b hdir hc hi hi5 hg ha, ?_, ?_⟩
  · intro fs choice confirm fs1 h
    rcases rollback_production_cases fs choice confirm with hc | ⟨st, hc⟩
    · rw [hc] at h
      injection h with h1 h2
      exact h2.symm
    · rw [hc] at h
      exact absurd (congrArg Prod.fst h) (by simp)
  · intro fs choice confirm
    rcases rollback_production_cases fs choice confirm with hc | ⟨st, hc⟩
    · rw [hc]
      exact ⟨rfl, rfl⟩
    · rw [hc]
      exact ⟨rfl, rfl⟩

def c9RestoredFile : FileState :=
  FileState.content [("version", .scalar (.str "0.9.0"))]

def c9ExampleDir : PyDict FileState :=
  [("aircraft_backup_20250101_000000.json", c9RestoredFile),
   ("aircraft_backup_20250102_000000.json", FileState.corrupt)]

def c9ExampleFS : FS where
  version_file := none
  staging := FileState.content [("version", .scalar (.str "1.0.0"))]
  production := FileState.corrupt
  backups_dir := some c9ExampleDir

theorem c9_rollback_correct_witness :
    rollback_production c9ExampleFS "2" "yes" =
        (true, { c9ExampleFS with production := c9RestoredFile }) ∧
      (rollback_production c9ExampleFS "abc" "yes").2 = c9ExampleFS ∧
      (rollback_production c9ExampleFS "2" "yes").2.staging = c9ExampleFS.staging ∧
      (rollback_production c9ExampleFS "2" "yes").2.backups_dir = c9ExampleFS.backups_dir :=
  ⟨c9_rollback_correct.1 c9ExampleFS c9ExampleDir "2" "yes" 1
      ("aircraft_backup_20250101_000000.json", c9RestoredFile)
      rfl (by decide) (by decide) (by decide) (by decide) (by decide),
   c9_rollback_correct.2.1 c9ExampleFS "abc" "yes"
     (rollback_production c9ExampleFS "abc" "yes").2 (by rfl),
   (c9_rollback_correct.2.2 c9ExampleFS "2" "yes").1,
   (c9_rollback_correct.2.2 c9ExampleFS "2" "yes").2⟩

-- ### Claim C4

/-- The registration value of an aircraft item as the duplicate check
reads it (`aircraft.get('registration')`; only object items reach it). -/
def itemRegValue : JItem → JValue
  | .obj r => pyGet r "registration"
  | .scalar _ => .null

theorem findDuplicate_of_dup :
    ∀ (items : List JItem) (idx : Nat) (seen : List JValue),
      (∀ it ∈ items, ∃ r, it = JItem.obj r ∧ jTruthy (pyGet r "registration") = true) →
      seen.Nodup →
      ¬ (seen ++ items.map itemRegValue).Nodup →
      ∃ v, findDuplicate items idx seen = some (.duplicateRegistration v) ∧
        v ∈ items.map itemRegValue
  | [], idx, seen => by
    intro hobj hseen hdup
    simp only [List.map_nil, List.append_nil] at hdup
    exact absurd hseen hdup
  | it :: rest, idx, seen => by
    intro hobj hseen hdup
    obtain ⟨r, rfl, htruthy⟩ := hobj it (by simp)
    simp only [findDuplicate, htruthy, if_true]
    by_cases hmem : pyGet r "registration" ∈ seen
    · rw [if_pos hmem]
      exact ⟨pyGet r "registration", rfl, by simp [itemRegValue]⟩
    · rw [if_neg hmem]
      have hseen2 : (seen ++ [pyGet r "registration"]).Nodup := by
        rw [List.nodup_append]
        exact ⟨hseen, List.nodup_singleton _, by simpa using hmem⟩
      have hdup2 : ¬ ((seen ++ [pyGet r "registration"]) ++ rest.map itemRegValue).Nodup := by
        intro hcontra
        apply hdup
        simpa [List.append_assoc, itemRegValue] using hcontra
      obtain ⟨v, hv, hvmem⟩ := findDuplicate_of_dup rest (idx + 1)
        (seen ++ [pyGet r "registration"]) (fun x hx => hobj x (by simp [hx])) hseen2 hdup2
      exact ⟨v, hv, by simp [hvmem]⟩

/-- C4 counterexample: a snapshot with two records sharing registration
"HB-DUP" passes validation when no schema document is supplied (the
no-schema path runs only `validate_basic_structure`, which has no
uniqueness check), while the custom rules — which run only in the schema
path — do catch and report the duplicate. -/
theorem c4_duplicate_passes_without_schema :
    validate_aircraft_registry (FileState.content
        [("version", .scalar (.str "1.0.0")), ("last_updated", .scalar (.str "t")),
         ("total_count", .scalar (.int 2)),
         ("aircraft", .list [.obj [("registration", .str "HB-DUP")],
                             .obj [("registration", .str "HB-DUP")]])])
        false (fun _ => true) = true ∧
      validate_custom_rules
        [("version", .scalar (.str "1.0.0")), ("last_updated", .scalar (.str "t")),
         ("total_count", .scalar (.int 2)),
         ("aircraft", .list [.obj [("registration", .str "HB-DUP")],
                             .obj [("registration", .str "HB-DUP")]])] =
        CustomRulesResult.duplicateRegistration (.str "HB-DUP") :=
  ⟨by decide, by decide⟩

/-- C4 (amended): when a schema document IS supplied, a snapshot whose
aircraft list contains two records with the same (truthy) registration
fails `validate_aircraft_registry`, and `validate_custom_rules` reports
the offending registration value; without a schema the duplicate check
does not run. -/
theorem c4_duplicate_fails_with_schema (d : RegistryDoc) (items : List JItem)
    (schema_ok : RegistryDoc → Bool)
    (ha : dictGet d "aircraft" = some (JField.list items))
    (hobj : ∀ it ∈ items, ∃ r, it = JItem.obj r ∧ jTruthy (pyGet r "registration") = true)
    (hdup : ¬ (items.map itemRegValue).Nodup) :
    (∃ v, validate_custom_rules d = CustomRulesResult.duplicateRegistration v ∧
       v ∈ items.map itemRegValue) ∧
      validate_aircraft_registry (FileState.content d) true schema_ok = false := by
  obtain ⟨v, hv, hvmem⟩ := findDuplicate_of_dup items 0 [] hobj List.nodup_nil
    (by simpa using hdup)
  have hcustom : validate_custom_rules d = CustomRulesResult.duplicateRegistration v := by
    unfold validate_custom_rules
    rw [ha]
    simp only [hv]
  refine ⟨⟨v, hcustom, hvmem⟩, ?_⟩
  unfold validate_aircraft_registry
  simp [hcustom]

theorem c4_duplicate_fails_with_schema_witness :
    (∃ v, validate_custom_rules
        [("version", .scalar (.str "1.0.0")), ("last_updated", .scalar (.str "t")),
         ("total_count", .scalar (.int 2)),
         ("aircraft", .list [.obj [("registration", .str "HB-DUP")],
                             .obj [("registration", .str "HB-DUP")]])] =
        CustomRulesResult.duplicateRegistration v ∧
      v ∈ [JItem.obj [("registration", .str "HB-DUP")],
           JItem.obj [("registration", .str "HB-DUP")]].map itemRegValue) ∧
      validate_aircraft_registry (FileState.content
        [("version", .scalar (.str "1.0.0")), ("last_updated", .scalar (.str "t")),
         ("total_count", .scalar (.int 2)),
         ("aircraft", .list [.obj [("registration", .str "HB-DUP")],
                             .obj [("registration", .str "HB-DUP")]])])
        true (fun _ => true) = false :=
  c4_duplicate_fails_with_schema _ _ (fun _ => true) (by decide)
    (by
      intro it hit
      simp only [List.mem_cons, List.not_mem_nil, or_false] at hit
      rcases hit with rfl | rfl
      · exact ⟨_, rfl, by decide⟩
      · exact ⟨_, rfl, by decide⟩)
    (by decide)

-- ### Claim C7

theorem dictGet_dictUpdate_of_not_mem (r e : PyDict α) (f : String)
    (h : dictGet e f = none) : dictGet (dictUpdate r e) f = dictGet r f := by
  induction e generalizing r with
  | nil => rfl
  | cons p rest ih =>
    obtain ⟨k, v⟩ := p
    simp only [dictGet] at h
    by_cases hk : k = f
    · simp [hk] at h
    · rw [if_neg hk] at h
      show dictGet (dictUpdate (dictSet r k v) rest) f = dictGet r f
      rw [ih (dictSet r k v) h, dictGet_dictSet_ne r k f v hk]

theorem dictGet_dictUpdate_of_mem (r e : PyDict α) (f : String) (v : α)
    (hnd : (e.map (·.1)).Nodup) (h : dictGet e f = some v) :
    dictGet (dictUpdate r e) f = some v := by
  induction e generalizing r with
  | nil => simp [dictGet] at h
  | cons p rest ih =>
    obtain ⟨k, w⟩ := p
    simp only [List.map_cons, List.nodup_cons] at hnd
    obtain ⟨hknotin, hndrest⟩ := hnd
    simp only [dictGet] at h
    by_cases hk : k = f
    · rw [if_pos hk] at h
      subst hk
      have hrest : dictGet rest k = none := by
        rw [dictGet_eq_none_iff_not_mem]
        simpa [dictKeys] using hknotin
      show dictGet (dictUpdate (dictSet r k w) rest) k = some v
      rw [dictGet_dictUpdate_of_not_mem (dictSet r k w) rest k hrest,
        dictGet_dictSet_self]
      injection h with h1
      rw [h1]
    · rw [if_neg hk] at h
      show dictGet (dictUpdate (dictSet r k w) rest) f = some v
      exact ih (dictSet r k w) hndrest h


theorem applyOverridesFold_cons (p : String × JDict) (rest : PyDict JDict)
    (D : PyDict JDict) :
    applyOverridesFold (p :: rest) D = applyOverridesFold rest (overrideStep D p) := rfl

theorem overrideStep_comment (D : PyDict JDict) (p : String × JDict)
    (h : strStartsWith p.1 "_" = true) : overrideStep D p = D := by
  unfold overrideStep
  rw [if_pos h]

theorem applyOverridesFold_skips_comments (overrides : PyDict JDict) :
    ∀ D, applyOverridesFold overrides D =
      applyOverridesFold (overrides.filter (fun p => !(strStartsWith p.1 "_"))) D := by
  induction overrides with
  | nil => intro D; rfl
  | cons p rest ih =>
    intro D
    rw [applyOverridesFold_cons]
    by_cases hcm : strStartsWith p.1 "_" = true
    · rw [overrideStep_comment D p hcm, List.filter_cons, if_neg (by simp [hcm])]
      exact ih D
    · rw [List.filter_cons, if_pos (by simp [hcm]), applyOverridesFold_cons]
      exact ih (overrideStep D p)

theorem mem_dictKeys_applyOverridesFold (overrides : PyDict JDict) :
    ∀ D k, k ∈ dictKeys (applyOverridesFold overrides D) →
      k ∈ dictKeys D ∨ (k ∈ overrides.map (·.1) ∧ strStartsWith k "_" = false) := by
  induction overrides with
  | nil => intro D k h; exact Or.inl h
  | cons p rest ih =>
    intro D k h
    rw [applyOverridesFold_cons] at h
    rcases ih (overrideStep D p) k h with hD | hrest
    · by_cases hcm : strStartsWith p.1 "_" = true
      · rw [overrideStep_comment D p hcm] at hD
        exact Or.inl hD
      · unfold overrideStep at hD
        rw [if_neg hcm] at hD
        have hD2 : k ∈ dictKeys D ∨ k = p.1 := by
          cases hdg : dictGet D p.1 <;> rw [hdg] at hD <;>
            exact (mem_dictKeys_dictSet D p.1 k _).mp hD
        rcases hD2 with hD2 | hD2
        · exact Or.inl hD2
        · refine Or.inr ⟨by simp [hD2], ?_⟩
          rw [hD2]
          exact Bool.not_eq_true _ ▸ hcm
    · exact Or.inr ⟨by simp [hrest.1], hrest.2⟩

theorem applyOverridesFold_not_mem (overrides : PyDict JDict) :
    ∀ D k, k ∉ overrides.map (·.1) →
      dictGet (applyOverridesFold overrides D) k = dictGet D k := by
  induction overrides with
  | nil => intro D k h; rfl
  | cons p rest ih =>
    intro D k h
    simp only [List.map_cons, List.mem_cons, not_or] at h
    obtain ⟨hk, hrest⟩ := h
    rw [applyOverridesFold_cons, ih (overrideStep D p) k hrest]
    unfold overrideStep
    by_cases hcm : strStartsWith p.1 "_" = true
    · rw [if_pos hcm]
    · rw [if_neg hcm]
      cases hdg : dictGet D p.1 <;> simp only [hdg] <;>
        rw [dictGet_dictSet_ne D p.1 k _ (fun he => hk he.symm)]

theorem applyOverridesFold_lookup (overrides : PyDict JDict) :
    ∀ D k od, (overrides.map (·.1)).Nodup →
      dictGet overrides k = some od → strStartsWith k "_" = false →
      dictGet (applyOverridesFold overrides D) k =
        some (dictUpdate ((dictGet D k).getD [("registration", JValue.str k)]) od) := by
  induction overrides with
  | nil => intro D k od hnd h hcm; simp [dictGet] at h
  | cons p rest ih =>
    intro D k od hnd h hcm
    obtain ⟨pk, pv⟩ := p
    simp only [List.map_cons, List.nodup_cons] at hnd
    obtain ⟨hnotin, hndrest⟩ := hnd
    simp only [dictGet] at h
    by_cases hk : pk = k
    · rw [if_pos hk] at h
      injection h with hod
      subst hk
      rw [applyOverridesFold_cons,
        applyOverridesFold_not_mem rest (overrideStep D (pk, pv)) pk
          (by simpa using hnotin)]
      unfold overrideStep
      rw [if_neg (by simp [hcm])]
      cases hdg : dictGet D pk with
      | none =>
        simp only [hdg]
        rw [dictGet_dictSet_self, hod]
        rfl
      | some r0 =>
        simp only [hdg]
        rw [dictGet_dictSet_self, hod]
        rfl
    · rw [if_neg hk] at h
      rw [applyOverridesFold_cons]
      have hDk : dictGet (overrideStep D (pk, pv)) k = dictGet D k := by
        unfold overrideStep
        by_cases hcm2 : strStartsWith pk "_" = true
        · rw [if_pos hcm2]
        · rw [if_neg hcm2]
          cases hdg : dictGet D pk <;> simp only [hdg] <;>
            rw [dictGet_dictSet_ne D pk k _ hk]
      rw [ih (overrideStep D (pk, pv)) k od hndrest h hcm, hDk]

/-- C7: override application skips every reserved-prefix comment key (the
result equals the fold over the non-comment entries, and any registration
of the result comes from the base or from a non-comment override key);
each non-comment override entry merges into the existing record with that
registration, override fields winning; a fresh registration synthesizes a
record that is exactly `{"registration": reg}` updated with the override
fields; and `dict.update` semantics make override fields overwrite while
untouched fields survive. -/
theorem c7_apply_overrides (overrides : PyDict JDict) (base : List JDict)
    (D0 : PyDict JDict)
    (hnd : (overrides.map (·.1)).Nodup)
    (hD0 : buildRecordLookup base [] = some D0) :
    (overrides = [] → apply_overrides overrides base = some base) ∧
    (overrides ≠ [] →
      apply_overrides overrides base =
        some ((applyOverridesFold overrides D0).map (·.2)) ∧
      applyOverridesFold overrides D0 =
        applyOverridesFold (overrides.filter (fun p => !(strStartsWith p.1 "_"))) D0 ∧
      (∀ k, k ∈ dictKeys (applyOverridesFold overrides D0) →
        k ∈ dictKeys D0 ∨ (k ∈ overrides.map (·.1) ∧ strStartsWith k "_" = false)) ∧
      (∀ k od, dictGet overrides k = some od → strStartsWith k "_" = false →
        (∀ r0, dictGet D0 k = some r0 →
          dictGet (applyOverridesFold overrides D0) k = some (dictUpdate r0 od)) ∧
        (dictGet D0 k = none →
          dictGet (applyOverridesFold overrides D0) k =
            some (dictUpdate [("registration", JValue.str k)] od)))) ∧
    (∀ (r0 od : JDict) (f : String), (od.map (·.1)).Nodup →
      (∀ v, dictGet od f = some v → dictGet (dictUpdate r0 od) f = some v) ∧
      (dictGet od f = none → dictGet (dictUpdate r0 od) f = dictGet r0 f)) := by
  refine ⟨?_, ?_, ?_⟩
  · intro he
    subst he
    rfl
  · intro hne
    have hemp : overrides.isEmpty = false := by
      cases overrides with
      | nil => exact absurd rfl hne
      | cons a t => rfl
    refine ⟨?_, applyOverridesFold_skips_comments overrides D0,
      mem_dictKeys_applyOverridesFold overrides D0, ?_⟩
    · unfold apply_overrides
      rw [hemp]
      simp [hD0]
    · intro k od hov hcm
      constructor
      · intro r0 hr0
        have := applyOverridesFold_lookup overrides D0 k od hnd hov hcm
        rw [hr0] at this
        exact this
      · intro hr0
        have := applyOverridesFold_lookup overrides D0 k od hnd hov hcm
        rw [hr0] at this
        exact this
  · intro r0 od f hndod
    exact ⟨fun v hv => dictGet_dictUpdate_of_mem r0 od f v hndod hv,
      fun hv => dictGet_dictUpdate_of_not_mem r0 od f hv⟩

def c7ExampleOverrides : PyDict JDict :=
  [("_comment", [("note", .str "curated extras")]),
   ("HB-NEW", [("mtom", .int 5)]),
   ("HB-OLD", [("mtom", .int 2)])]

def c7ExampleBase : List JDict :=
  [[("registration", .str "HB-OLD"), ("mtom", .int 1)]]

def c7ExampleLookup : PyDict JDict :=
  [("HB-OLD", [("registration", .str "HB-OLD"), ("mtom", .int 1)])]

theorem c7_apply_overrides_witness :
    (c7ExampleOverrides = [] →
      apply_overrides c7ExampleOverrides c7ExampleBase = some c7ExampleBase) ∧
    (c7ExampleOverrides ≠ [] →
      apply_overrides c7ExampleOverrides c7ExampleBase =
        some ((applyOverridesFold c7ExampleOverrides c7ExampleLookup).map (·.2)) ∧
      applyOverridesFold c7ExampleOverrides c7ExampleLookup =
        applyOverridesFold
          (c7ExampleOverrides.filter (fun p => !(strStartsWith p.1 "_"))) c7ExampleLookup ∧
      (∀ k, k ∈ dictKeys (applyOverridesFold c7ExampleOverrides c7ExampleLookup) →
        k ∈ dictKeys c7ExampleLookup ∨
          (k ∈ c7ExampleOverrides.map (·.1) ∧ strStartsWith k "_" = false)) ∧
      (∀ k od, dictGet c7ExampleOverrides k = some od → strStartsWith k "_" = false →
        (∀ r0, dictGet c7ExampleLookup k = some r0 →
          dictGet (applyOverridesFold c7ExampleOverrides c7ExampleLookup) k =
            some (dictUpdate r0 od)) ∧
        (dictGet c7ExampleLookup k = none →
          dictGet (applyOverridesFold c7ExampleOverrides c7ExampleLookup) k =
            some (dictUpdate [("registration", JValue.str k)] od)))) ∧
    (∀ (r0 od : JDict) (f : String), (od.map (·.1)).Nodup →
      (∀ v, dictGet od f = some v → dictGet (dictUpdate r0 od) f = some v) ∧
      (dictGet od f = none → dictGet (dictUpdate r0 od) f = dictGet r0 f)) :=
  c7_apply_overrides c7ExampleOverrides c7ExampleBase c7ExampleLookup (by decide) (by rfl)

-- ### Claim C1

/-- C1 counterexample: production's record carries an explicit
`mtom: null` while staging's record lacks the `mtom` key entirely, yet the
diff reports no modification — `.get` reads both sides as `None`, so a
None-vs-missing pair does NOT count as a difference (the claim's
parenthetical says it does). -/
theorem c1_none_vs_missing_not_a_difference :
    (analyze_changes
        [("aircraft", .list [.obj [("registration", .str "A"),
          ("icao_aircraft_type", .str "L2J"), ("aircraft_type", .str "Foo")]])]
        [("aircraft", .list [.obj [("registration", .str "A"),
          ("icao_aircraft_type", .str "L2J"), ("aircraft_type", .str "Foo"),
          ("mtom", .null)]])]).map
        (fun r => (r.added, r.removed, r.modified)) = some ([], [], []) ∧
      dictGet [("registration", JValue.str "A"), ("icao_aircraft_type", JValue.str "L2J"),
        ("aircraft_type", JValue.str "Foo"), ("mtom", JValue.null)] "mtom" =
        some JValue.null ∧
      dictGet [("registration", JValue.str "A"), ("icao_aircraft_type", JValue.str "L2J"),
        ("aircraft_type", JValue.str "Foo")] "mtom" = none :=
  ⟨by rfl, by rfl, by rfl⟩

/-- C1 (amended): for every pair of documents whose lookups build, the
report maps exactly the staging-only registrations to their full staging
record in registration-sorted order (`added`), the production-only
registrations to their full production record in sorted order
(`removed`), and a common registration to a change set exactly when the
watched fields `{icao_aircraft_type, aircraft_type, mtom}` — read via
`.get`, which identifies a stored `None` with a missing key — differ,
with `old` from production and `new` from staging; registrations
differing only in unwatched fields are absent from `modified`. -/
theorem c1_diff_report (staging production : RegistryDoc) (sL pL : PyDict JDict)
    (hs : create_aircraft_lookup staging = some sL)
    (hp : create_aircraft_lookup production = some pL) :
    ∃ r, analyze_changes staging production = some r ∧
      (∀ k rec, (k, rec) ∈ r.added ↔ (dictGet sL k = some rec ∧ dictGet pL k = none)) ∧
      (r.added.map (·.1)).Sorted StrLe ∧
      (∀ k rec, (k, rec) ∈ r.removed ↔ (dictGet pL k = some rec ∧ dictGet sL k = none)) ∧
      (r.removed.map (·.1)).Sorted StrLe ∧
      (∀ k cs, (k, cs) ∈ r.modified ↔
        ∃ srec prec, dictGet sL k = some srec ∧ dictGet pL k = some prec ∧
          cs = compare_aircraft prec srec ∧ cs ≠ []) ∧
      (∀ o n f ov nv, (f, ov, nv) ∈ compare_aircraft o n ↔
        (f ∈ watchedFields ∧ ov = pyGet o f ∧ nv = pyGet n f ∧ pyGet o f ≠ pyGet n f)) :=
  ⟨mkReport staging production sL pL, analyze_changes_eq_some _ _ _ _ hs hp,
    fun k rec => mem_diffSlice_iff sL pL k rec,
    sorted_map_fst_diffSlice sL pL,
    fun k rec => mem_diffSlice_iff pL sL k rec,
    sorted_map_fst_diffSlice pL sL,
    fun k cs => mem_modifiedEntries_iff sL pL k cs,
    fun o n f ov nv => mem_compare_aircraft_iff o n f ov nv⟩

def c1ExampleStaging : RegistryDoc :=
  [("version", .scalar (.str "1.1.0")),
   ("aircraft", .list [.obj [("registration", .str "HB-AAA"),
      ("icao_aircraft_type", .str "L2J"), ("aircraft_type", .str "Foo"),
      ("mtom", .int 1000)]])]

def c1ExampleProduction : RegistryDoc :=
  [("version", .scalar (.str "1.0.0")),
   ("aircraft", .list [.obj [("registration", .str "HB-AAA"),
      ("icao_aircraft_type", .str "L2J"), ("aircraft_type", .str "Bar"),
      ("mtom", .int 1000)],
    .obj [("registration", .str "HB-ZZZ"),
      ("icao_aircraft_type", .str "L1P"), ("aircraft_type", .str "Old"),
      ("mtom", .null)]])]

def c1ExampleStagingLookup : PyDict JDict :=
  [("HB-AAA", [("registration", .str "HB-AAA"), ("icao_aircraft_type", .str "L2J"),
    ("aircraft_type", .str "Foo"), ("mtom", .int 1000)])]

def c1ExampleProductionLookup : PyDict JDict :=
  [("HB-AAA", [("registration", .str "HB-AAA"), ("icao_aircraft_type", .str "L2J"),
    ("aircraft_type", .str "Bar"), ("mtom", .int 1000)]),
   ("HB-ZZZ", [("registration", .str "HB-ZZZ"), ("icao_aircraft_type", .str "L1P"),
    ("aircraft_type", .str "Old"), ("mtom", .null)])]

theorem c1_diff_report_witness :
    ∃ r, analyze_changes c1ExampleStaging c1ExampleProduction = some r ∧
      (∀ k rec, (k, rec) ∈ r.added ↔
        (dictGet c1ExampleStagingLookup k = some rec ∧
          dictGet c1ExampleProductionLookup k = none)) ∧
      (r.added.map (·.1)).Sorted StrLe ∧
      (∀ k rec, (k, rec) ∈ r.removed ↔
        (dictGet c1ExampleProductionLookup k = some rec ∧
          dictGet c1ExampleStagingLookup k = none)) ∧
      (r.removed.map (·.1)).Sorted StrLe ∧
      (∀ k cs, (k, cs) ∈ r.modified ↔
        ∃ srec prec, dictGet c1ExampleStagingLookup k = some srec ∧
          dictGet c1ExampleProductionLookup k = some prec ∧
          cs = compare_aircraft prec srec ∧ cs ≠ []) ∧
      (∀ o n f ov nv, (f, ov, nv) ∈ compare_aircraft o n ↔
        (f ∈ watchedFields ∧ ov = pyGet o f ∧ nv = pyGet n f ∧ pyGet o f ≠ pyGet n f)) :=
  c1_diff_report c1ExampleStaging c1ExampleProduction
    c1ExampleStagingLookup c1ExampleProductionLookup (by rfl) (by rfl)
